import Mathlib

/-!
Verification of the AI Research Paper Assistant core (src/app.py) against its
natural-language specification.  The Python functions are shallowly embedded as
executable Lean definitions: string functions work on `String` / `List Char`,
fallible code (Python exceptions such as `IndexError` or a library
`ValueError`) is modelled with `Option`, where `none` means the call raises.
-/

namespace RPA

/-! ## Python string primitives used by the source -/

/-- Model of Python `str.lower` for one character (the source only ever
lowercases ASCII keywords, so ASCII lowercasing is the relevant behaviour). -/
def pyLowerChar (c : Char) : Char := c.toLower

/-- Model of Python `str.lower`: lowercase every character. -/
def pyLowerS (s : String) : String := String.mk (s.toList.map pyLowerChar)

/-- Remove trailing whitespace characters from a character list (the tail half
of Python `str.strip`), written by structural recursion so it evaluates in the
kernel. -/
def dropTrailingWs : List Char → List Char
  | [] => []
  | c :: rest =>
    match dropTrailingWs rest with
    | [] => if c.isWhitespace then [] else [c]
    | l => c :: l

/-- Model of Python `str.strip` on character lists: drop leading and trailing
whitespace. -/
def stripChars (l : List Char) : List Char :=
  dropTrailingWs (l.dropWhile Char.isWhitespace)

/-- Model of Python `str.strip` on strings. -/
def pyStrip (s : String) : String := String.mk (stripChars s.toList)

/-- Fuel-driven splitter behind `pySplit`.  Mirrors Python `str.split(sep)` for
a non-empty separator `a :: tail`: scan left to right, cut at every
non-overlapping occurrence of the separator.  The fuel is only there to make
the recursion structural (each step consumes at least one character, so fuel
equal to the length of the input never runs out). -/
def pySplitFuel (a : Char) (tail : List Char) : Nat → List Char → List (List Char)
  | _, [] => [[]]
  | 0, c :: rest => [c :: rest]
  | fuel + 1, c :: rest =>
    if (a :: tail).isPrefixOf (c :: rest) then
      [] :: pySplitFuel a tail fuel (rest.drop tail.length)
    else
      match pySplitFuel a tail fuel rest with
      | [] => [[c]]
      | x :: xs => (c :: x) :: xs

/-- Model of Python `str.split(sep)` for a literal non-empty separator (the
source only splits on the literal tags `<entry>`, `<title>`, `</title>`,
`<id>`, `</id>`; Python raises on an empty separator, which never occurs, so
that case is given the harmless value `[s]`). -/
def pySplit (sep s : String) : List String :=
  match sep.toList with
  | [] => [s]
  | a :: tail => (pySplitFuel a tail s.toList.length s.toList).map fun l => String.mk l

/-- Occurrence test matching the scan of `pySplitFuel`: does the non-empty
separator `a :: tail` occur anywhere in the list? -/
def containsSubCore (a : Char) (tail : List Char) : List Char → Bool
  | [] => false
  | c :: rest => (a :: tail).isPrefixOf (c :: rest) || containsSubCore a tail rest

/-- Substring occurrence test on strings (Python `sep in s` for the non-empty
literal separators used by the source). -/
def hasSub (sep s : String) : Bool :=
  match sep.toList with
  | [] => true
  | a :: tail => containsSubCore a tail s.toList

/-! ## TextNormalizer: `clean_text` (src/app.py lines 58-59)

`clean_text(text)` is `re.sub(r"\s+", " ", text).strip()`. -/

/-- Model of `re.sub(r"\s+", " ", text)`: replace each maximal run of
whitespace by a single space.  The boolean flag records whether the scanner is
inside a whitespace run (so only the first character of a run emits the
space). -/
def collapseCore : Bool → List Char → List Char
  | _, [] => []
  | inRun, c :: rest =>
    if c.isWhitespace then
      (if inRun then [] else [' ']) ++ collapseCore true rest
    else
      c :: collapseCore false rest

/-- Embedding of `clean_text` (src/app.py line 59):
`re.sub(r"\s+", " ", text).strip()`.  Total: the Python code cannot raise. -/
def clean_text (s : String) : String :=
  pyStrip (String.mk (collapseCore false s.toList))

/-! ## IntentClassifier: `predict_user_intent` (src/app.py lines 73-81) -/

/-- The string returned by rule 1 of `predict_user_intent` (the spec's
`Survey` label). -/
def surveyLabel : String := "📚 Survey / Review focused research"

/-- The string returned by rule 2 of `predict_user_intent` (the spec's
`ModelOrAlgorithm` label). -/
def modelLabel : String := "🧠 Model / Algorithm based research"

/-- The string returned by rule 3 of `predict_user_intent` (the spec's
`DatasetOrExperimental` label). -/
def datasetLabel : String := "📊 Dataset / Experimental research"

/-- The fallback string of `predict_user_intent` (the spec's `General`
label). -/
def generalLabel : String := "🔍 General research exploration"

/-- Embedding of `predict_user_intent` (src/app.py lines 73-81): lowercase the
terms, then an ordered if/elif chain, first match wins.  Python's
`any(x in k for x in [...])` is the corresponding disjunction of list
memberships. -/
def predict_user_intent (keywords : List String) : String :=
  let k := keywords.map pyLowerS
  if "survey" ∈ k ∨ "review" ∈ k then surveyLabel
  else if "model" ∈ k ∨ "network" ∈ k ∨ "algorithm" ∈ k then modelLabel
  else if "dataset" ∈ k ∨ "experiment" ∈ k ∨ "data" ∈ k then datasetLabel
  else generalLabel

/-! ## SearchClient: `search_arxiv` (src/app.py lines 94-96)

Only the request URL construction is local computation; the network call
itself is an external collaborator.  The f-string interpolates the query
verbatim — no percent-encoding is applied anywhere. -/

/-- Embedding of the URL built by `search_arxiv` (src/app.py line 95):
`f"http://export.arxiv.org/api/query?search_query=all:{query}&start=0&max_results={max_results}"`. -/
def search_arxiv_url (query : String) (max_results : Nat) : String :=
  "http://export.arxiv.org/api/query?search_query=all:" ++ query ++
    "&start=0&max_results=" ++ toString max_results

/-! ## FeedParser: `parse_arxiv` (src/app.py lines 98-105)

Each Python statement `entry.split("<title>")[1]` raises `IndexError` when the
tag is absent (the split returns a one-element list); `[0]` always succeeds.
A raise anywhere aborts the whole function, so the embedding returns `none`
for the whole parse in that case. -/

/-- The body of the loop of `parse_arxiv` for one entry chunk:
`entry.split("<title>")[1].split("</title>")[0].strip()` and
`entry.split("<id>")[1].split("</id>")[0].strip()`; `none` models the
`IndexError` raised when `<title>` or `<id>` does not occur in the chunk. -/
def parseEntry (entry : String) : Option (String × String) :=
  match (pySplit "<title>" entry).get? 1 with
  | none => none
  | some afterTitle =>
    match (pySplit "<id>" entry).get? 1 with
    | none => none
    | some afterId =>
      some (pyStrip ((pySplit "</title>" afterTitle).headD ""),
            pyStrip ((pySplit "</id>" afterId).headD ""))

/-- Apply `f` to every element, failing (as the Python loop's uncaught
exception does) as soon as one application fails. -/
def mapOpt (f : α → Option β) : List α → Option (List β)
  | [] => some []
  | a :: rest =>
    match f a with
    | none => none
    | some b =>
      match mapOpt f rest with
      | none => none
      | some bs => some (b :: bs)

/-- Embedding of `parse_arxiv` (src/app.py lines 98-105): split the payload on
`"<entry>"`, drop everything before the first delimiter, and extract
`(title, link)` from each remaining chunk; `none` models the uncaught
`IndexError` on a chunk missing a tag. -/
def parse_arxiv (feed : String) : Option (List (String × String)) :=
  mapOpt parseEntry ((pySplit "<entry>" feed).drop 1)

/-! ## SummarizationClient length budgets (src/app.py lines 171 and 181-186)

`max_len = {"Short": 80, "Medium": 140, "Long": 220}[length]` and the
summarizer is called with `max_length=max_len, min_length=int(max_len * 0.4)`. -/

/-- Embedding of the tier table lookup
`{"Short": 80, "Medium": 140, "Long": 220}[length]`; `none` models the
`KeyError` for any other key (the radio widget only offers the three keys). -/
def summary_max_len (length : String) : Option Nat :=
  if length = "Short" then some 80
  else if length = "Medium" then some 140
  else if length = "Long" then some 220
  else none

/-- Embedding of `int(max_len * 0.4)` (src/app.py line 184).  For the three
values the table can produce (80, 140, 220) the floating-point product rounds
to the exact integers 32, 56, 88, so the integer expression `2 * m / 5`
computes the same numbers. -/
def summary_min_len (max_len : Nat) : Nat := 2 * max_len / 5

/-! ## KeywordExtractor: `extract_keywords` (src/app.py lines 68-71)

`extract_keywords(text, top_n=8)` builds
`TfidfVectorizer(stop_words="english", max_features=top_n)`, fits it on the
single document `[text]` and returns `get_feature_names_out()`.  The relevant
library behaviour (the library is an external collaborator, its contract is
stable and documented):
  * the analyzer lowercases the document and tokenizes it with the pattern
    `\b\w\w+\b`, i.e. maximal runs of word characters of length at least 2;
  * tokens belonging to the built-in English stop-word list are discarded;
  * the vocabulary is the set of distinct remaining terms; fitting raises
    `ValueError: empty vocabulary` when that set is empty (modelled `none`);
  * with `max_features = n`, only the `n` most frequent terms are kept (the
    tie order among equal frequencies is not specified by the library; it is
    modelled here as lexicographic, which none of the proved properties
    depend on);
  * `get_feature_names_out` lists the kept vocabulary in sorted
    (lexicographic) order. -/

/-- A word character for the token pattern `\w` (the ASCII case, which is the
relevant one for the source's inputs): letter, digit or underscore. -/
def isWordChar (c : Char) : Bool := c.isAlphanum || c == '_'

/-- Cut a character list into maximal runs of word characters; `acc` holds the
current run reversed. -/
def wordRunsCore (acc : List Char) : List Char → List (List Char)
  | [] => if acc.isEmpty then [] else [acc.reverse]
  | c :: rest =>
    if isWordChar c then wordRunsCore (c :: acc) rest
    else if acc.isEmpty then wordRunsCore [] rest
    else acc.reverse :: wordRunsCore [] rest

/-- The built-in English stop-word list of the vectorizer (the frozen
318-word list shipped with the library). -/
def english_stop_words : List String :=
  ["a", "about", "above", "across", "after", "afterwards", "again", "against",
   "all", "almost", "alone", "along", "already", "also", "although", "always",
   "am", "among", "amongst", "amoungst", "amount", "an", "and", "another",
   "any", "anyhow", "anyone", "anything", "anyway", "anywhere", "are",
   "around", "as", "at", "back", "be", "became", "because", "become",
   "becomes", "becoming", "been", "before", "beforehand", "behind", "being",
   "below", "beside", "besides", "between", "beyond", "bill", "both",
   "bottom", "but", "by", "call", "can", "cannot", "cant", "co", "con",
   "could", "couldnt", "cry", "de", "describe", "detail", "do", "done",
   "down", "due", "during", "each", "eg", "eight", "either", "eleven",
   "else", "elsewhere", "empty", "enough", "etc", "even", "ever", "every",
   "everyone", "everything", "everywhere", "except", "few", "fifteen",
   "fifty", "fill", "find", "fire", "first", "five", "for", "former",
   "formerly", "forty", "found", "four", "from", "front", "full", "further",
   "get", "give", "go", "had", "has", "hasnt", "have", "he", "hence", "her",
   "here", "hereafter", "hereby", "herein", "hereupon", "hers", "herself",
   "him", "himself", "his", "how", "however", "hundred", "i", "ie", "if",
   "in", "inc", "indeed", "interest", "into", "is", "it", "its", "itself",
   "keep", "last", "latter", "latterly", "least", "less", "ltd", "made",
   "many", "may", "me", "meanwhile", "might", "mill", "mine", "more",
   "moreover", "most", "mostly", "move", "much", "must", "my", "myself",
   "name", "namely", "neither", "never", "nevertheless", "next", "nine",
   "no", "nobody", "none", "noone", "nor", "not", "nothing", "now",
   "nowhere", "of", "off", "often", "on", "once", "one", "only", "onto",
   "or", "other", "others", "otherwise", "our", "ours", "ourselves", "out",
   "over", "own", "part", "per", "perhaps", "please", "put", "rather", "re",
   "same", "see", "seem", "seemed", "seeming", "seems", "serious", "several",
   "she", "should", "show", "side", "since", "sincere", "six", "sixty", "so",
   "some", "somehow", "someone", "something", "sometime", "sometimes",
   "somewhere", "still", "such", "system", "take", "ten", "than", "that",
   "the", "their", "them", "themselves", "then", "thence", "there",
   "thereafter", "thereby", "therefore", "therein", "thereupon", "these",
   "they", "thick", "thin", "third", "this", "those", "though", "three",
   "through", "throughout", "thru", "thus", "to", "together", "too", "top",
   "toward", "towards", "twelve", "twenty", "two", "un", "under", "until",
   "up", "upon", "us", "very", "via", "was", "we", "well", "were", "what",
   "whatever", "when", "whence", "whenever", "where", "whereafter",
   "whereas", "whereby", "wherein", "whereupon", "wherever", "whether",
   "which", "while", "whither", "who", "whoever", "whole", "whom", "whose",
   "why", "will", "with", "within", "without", "would", "yet", "you",
   "your", "yours", "yourself", "yourselves"]

/-- Tokenization step of the vectorizer: lowercase the document, then take the
maximal word-character runs of length at least 2. -/
def tokenizeDoc (s : String) : List String :=
  ((wordRunsCore [] (s.toList.map pyLowerChar)).filter fun t => 2 ≤ t.length).map
    fun l => String.mk l

/-- The tokens that survive stop-word filtering. -/
def qualifyingTerms (s : String) : List String :=
  (tokenizeDoc s).filter fun t => ¬ english_stop_words.contains t

/-- The single-document vocabulary: the distinct qualifying terms. -/
def termVocab (s : String) : List String := (qualifyingTerms s).dedup

/-- Number of occurrences of a term in the document (the term frequency that
`max_features` selection orders by). -/
def termCount (s : String) (t : String) : Nat := (qualifyingTerms s).count t

/-- Lexicographic order on character lists, as a boolean relation. -/
def lexLeChars : List Char → List Char → Bool
  | [], _ => true
  | _ :: _, [] => false
  | a :: as, b :: bs => if a = b then lexLeChars as bs else decide (a < b)

/-- Lexicographic order on strings, as a boolean relation. -/
def lexLe (s t : String) : Bool := lexLeChars s.toList t.toList

/-- Selection order for `max_features`: larger term count first, lexicographic
among equal counts. -/
def freqLe (cnt : String → Nat) (t u : String) : Bool :=
  if cnt t = cnt u then lexLe t u else decide (cnt u < cnt t)

/-- Insertion step of insertion sort (kept structural so it evaluates in the
kernel). -/
def insertLe (le : α → α → Bool) (a : α) : List α → List α
  | [] => [a]
  | b :: rest => if le a b then a :: b :: rest else b :: insertLe le a rest

/-- Insertion sort by a boolean relation. -/
def sortLe (le : α → α → Bool) : List α → List α
  | [] => []
  | a :: rest => insertLe le a (sortLe le rest)

/-- Embedding of `extract_keywords` (src/app.py lines 68-71): fit the
vectorizer on the single document and return the feature names.  `none`
models the `ValueError: empty vocabulary` that fitting raises when no
qualifying term exists; otherwise at most `top_n` terms are kept (most
frequent first when the vocabulary is larger than `top_n`) and returned in
sorted order. -/
def extract_keywords (text : String) (top_n : Nat) : Option (List String) :=
  let v := termVocab text
  if v.isEmpty then none
  else
    let selected := if v.length ≤ top_n then v
      else (sortLe (freqLe (termCount text)) v).take top_n
    some (sortLe lexLe selected)

/-! ## Pipeline flows (src/app.py tab2 lines 212-223, tab3 lines 245-254)

Both flows feed a search-service response payload to `parse_arxiv`.  The
network call is the external collaborator, so the flows are modelled as
functions of the raw response payload.  Tab 2 displays `papers[:num_papers]`;
tab 3 displays the whole parsed list (its `num_papers` input only
parameterizes the `max_results` field of the request URL, the displayed list
is never sliced). -/

/-- Records displayed by the Suggest Papers flow (src/app.py line 221):
`papers[:num_papers]` applied to the parse of the response payload. -/
def suggestedPapersShown (feed : String) (num_papers : Nat) :
    Option (List (String × String)) :=
  (parse_arxiv feed).map fun ps => ps.take num_papers

/-- Records displayed by the Search Papers flow (src/app.py line 252): the
whole parsed list; `num_papers` only reaches the request URL (line 247) and
does not bound the display loop. -/
def searchPapersShown (feed : String) (num_papers : Nat) :
    Option (List (String × String)) :=
  parse_arxiv feed

/-! ## Concrete payloads used by the claims -/

/-- The synthetic two-entry feed of the specification's round-trip property,
with surrounding whitespace on the first entry's title and id to exercise the
trimming. -/
def sampleFeed : String :=
  "<feed><title>ArXiv Query Results</title><entry>\n  <title> Quantum Error Correction </title>\n  <id> http://example.org/abs/1 </id>\n</entry><entry><title>Neural Scaling Laws</title><id>http://example.org/abs/2</id></entry></feed>"

/-- A payload whose first entry has an id but no title element, followed by a
well-formed entry. -/
def malformedFeed : String :=
  "<feed><entry><id>http://example.org/abs/1</id></entry><entry><title>Good Entry</title><id>http://example.org/abs/2</id></entry></feed>"

/-- A payload with a single entry that has no title element. -/
def malformedFeed2 : String :=
  "<feed><entry><id>http://example.org/abs/9</id></feed>"

/-- A payload carrying six well-formed entries. -/
def sixEntryFeed : String :=
  "<feed><entry><title>P1</title><id>u1</id></entry><entry><title>P2</title><id>u2</id></entry><entry><title>P3</title><id>u3</id></entry><entry><title>P4</title><id>u4</id></entry><entry><title>P5</title><id>u5</id></entry><entry><title>P6</title><id>u6</id></entry></feed>"

/-! ## Observables for the NormalizedText invariants -/

/-- Holds when no two consecutive characters are both whitespace (the spec's
invariant: no run of two or more whitespace characters). -/
def noWsRun : List Char → Bool
  | [] => true
  | [_] => true
  | a :: b :: rest => !(a.isWhitespace && b.isWhitespace) && noWsRun (b :: rest)

/-- Holds when the first character, if any, is not whitespace. -/
def headNotWs : List Char → Bool
  | [] => true
  | c :: _ => !c.isWhitespace

/-- Holds when the last character, if any, is not whitespace. -/
def lastNotWs : List Char → Bool
  | [] => true
  | [c] => !c.isWhitespace
  | _ :: c :: rest => lastNotWs (c :: rest)

/-! ## Helper lemmas about the splitter and the parser -/

theorem mk_toList (s : String) : String.mk s.toList = s := rfl

theorem pySplitFuel_of_not_contains (a : Char) (tail : List Char) (s : List Char)
    (h : containsSubCore a tail s = false) :
    ∀ fuel, pySplitFuel a tail fuel s = [s] := by
  induction s with
  | nil => intro fuel; cases fuel <;> rfl
  | cons c rest ih =>
    intro fuel
    have h' : (a :: tail).isPrefixOf (c :: rest) = false ∧
        containsSubCore a tail rest = false := by
      simpa [containsSubCore] using h
    cases fuel with
    | zero => rfl
    | succ fuel =>
      simp [pySplitFuel, h'.1, ih h'.2 fuel]

theorem pySplit_of_not_hasSub (sep s : String) (h : hasSub sep s = false) :
    pySplit sep s = [s] := by
  cases hsep : sep.toList with
  | nil =>
    obtain ⟨d⟩ := sep
    simp only [String.toList] at hsep
    subst hsep
    simp [hasSub, String.toList] at h
  | cons a tail =>
    simp only [hasSub, hsep] at h
    simp only [pySplit, hsep]
    rw [pySplitFuel_of_not_contains a tail s.toList h]
    simp [mk_toList]

theorem parseEntry_none_of_missing_tag (e : String)
    (h : hasSub "<title>" e = false ∨ hasSub "<id>" e = false) :
    parseEntry e = none := by
  rcases h with h | h
  · simp [parseEntry, pySplit_of_not_hasSub _ _ h]
  · unfold parseEntry
    cases hg : (pySplit "<title>" e).get? 1 with
    | none => rfl
    | some t => simp [pySplit_of_not_hasSub _ _ h]

theorem mapOpt_none_of_mem (f : α → Option β) (l : List α) (a : α)
    (ha : a ∈ l) (hf : f a = none) : mapOpt f l = none := by
  induction l with
  | nil => cases ha
  | cons b rest ih =>
    rcases List.mem_cons.mp ha with rfl | hmem
    · simp [mapOpt, hf]
    · unfold mapOpt
      cases hb : f b with
      | none => rfl
      | some v => rw [ih hmem]

/-! ## Helper lemmas about insertion sort -/

theorem insertLe_perm (le : α → α → Bool) (a : α) (l : List α) :
    List.Perm (insertLe le a l) (a :: l) := by
  induction l with
  | nil => exact List.Perm.refl _
  | cons b rest ih =>
    unfold insertLe
    by_cases hle : le a b
    · rw [if_pos hle]
    · rw [if_neg hle]
      exact (ih.cons b).trans (List.Perm.swap a b rest)

theorem sortLe_perm (le : α → α → Bool) (l : List α) : List.Perm (sortLe le l) l := by
  induction l with
  | nil => exact List.Perm.refl _
  | cons a rest ih =>
    exact (insertLe_perm le a (sortLe le rest)).trans (ih.cons a)

/-! ## Helper lemmas about whitespace normalization -/

theorem noWsRun_tail (a : Char) (l : List Char) (h : noWsRun (a :: l) = true) :
    noWsRun l = true := by
  cases l with
  | nil => rfl
  | cons b rest =>
    simp only [noWsRun, Bool.and_eq_true] at h
    exact h.2

theorem noWsRun_pair (a b : Char) (l : List Char) (h : noWsRun (a :: b :: l) = true) :
    (a.isWhitespace && b.isWhitespace) = false := by
  simp only [noWsRun, Bool.and_eq_true] at h
  cases ha : a.isWhitespace <;> cases hb : b.isWhitespace <;> simp_all

theorem noWsRun_cons_of_not_ws (a : Char) (l : List Char)
    (ha : a.isWhitespace = false) (h : noWsRun l = true) :
    noWsRun (a :: l) = true := by
  cases l with
  | nil => rfl
  | cons b rest => simp [noWsRun, ha, h]

theorem noWsRun_cons_of_headNotWs (a : Char) (l : List Char)
    (hh : headNotWs l = true) (h : noWsRun l = true) :
    noWsRun (a :: l) = true := by
  cases l with
  | nil => rfl
  | cons b rest =>
    simp only [headNotWs, Bool.not_eq_true'] at hh
    simp [noWsRun, hh, h]

theorem headNotWs_collapse (s : List Char) : headNotWs (collapseCore true s) = true := by
  induction s with
  | nil => rfl
  | cons c rest ih =>
    by_cases hc : c.isWhitespace
    · simpa [collapseCore, hc] using ih
    · simp [collapseCore, hc, headNotWs]

theorem noWsRun_collapse (s : List Char) : ∀ b, noWsRun (collapseCore b s) = true := by
  induction s with
  | nil => intro b; rfl
  | cons c rest ih =>
    intro b
    by_cases hc : c.isWhitespace
    · cases b with
      | true => simpa [collapseCore, hc] using ih true
      | false =>
        have : collapseCore false (c :: rest) = ' ' :: collapseCore true rest := by
          simp [collapseCore, hc]
        rw [this]
        exact noWsRun_cons_of_headNotWs ' ' _ (headNotWs_collapse rest) (ih true)
    · have : collapseCore b (c :: rest) = c :: collapseCore false rest := by
        simp [collapseCore, hc]
      rw [this]
      exact noWsRun_cons_of_not_ws c _ (by simpa using hc) (ih false)

theorem noWsRun_dropWhile (p : Char → Bool) (l : List Char) (h : noWsRun l = true) :
    noWsRun (l.dropWhile p) = true := by
  induction l with
  | nil => rfl
  | cons c rest ih =>
    rw [List.dropWhile_cons]
    by_cases hp : p c
    · rw [if_pos hp]; exact ih (noWsRun_tail _ _ h)
    · rw [if_neg hp]; exact h

theorem headNotWs_dropWhileWs (l : List Char) :
    headNotWs (l.dropWhile Char.isWhitespace) = true := by
  induction l with
  | nil => rfl
  | cons c rest ih =>
    rw [List.dropWhile_cons]
    by_cases hc : c.isWhitespace
    · rw [if_pos hc]; exact ih
    · rw [if_neg hc]; simpa [headNotWs] using hc

theorem dropTrailingWs_shape (c : Char) (rest : List Char) :
    dropTrailingWs (c :: rest) = [] ∨ ∃ t, dropTrailingWs (c :: rest) = c :: t := by
  unfold dropTrailingWs
  cases dropTrailingWs rest with
  | nil =>
    by_cases hc : c.isWhitespace
    · left; simp [hc]
    · right; exact ⟨[], by simp [hc]⟩
  | cons d t => right; exact ⟨d :: t, rfl⟩

theorem noWsRun_dropTrailing (l : List Char) (h : noWsRun l = true) :
    noWsRun (dropTrailingWs l) = true := by
  induction l with
  | nil => rfl
  | cons c rest ih =>
    have hrest := noWsRun_tail _ _ h
    have hih := ih hrest
    unfold dropTrailingWs
    cases hr : dropTrailingWs rest with
    | nil =>
      by_cases hc : c.isWhitespace <;> simp [hc, noWsRun]
    | cons d t =>
      rw [hr] at hih
      cases rest with
      | nil => simp [dropTrailingWs] at hr
      | cons r0 rs =>
        rcases dropTrailingWs_shape r0 rs with hsh | ⟨t2, hsh⟩
        · rw [hsh] at hr; cases hr
        · rw [hsh] at hr
          injection hr with hd ht
          subst hd
          have hpair : (c.isWhitespace && r0.isWhitespace) = false :=
            noWsRun_pair c r0 rs h
          simp [noWsRun, hpair, hih]

theorem headNotWs_dropTrailing (l : List Char) (h : headNotWs l = true) :
    headNotWs (dropTrailingWs l) = true := by
  cases l with
  | nil => rfl
  | cons c rest =>
    rcases dropTrailingWs_shape c rest with hsh | ⟨t, hsh⟩
    · rw [hsh]; rfl
    · rw [hsh]; exact h

theorem lastNotWs_dropTrailing (l : List Char) :
    lastNotWs (dropTrailingWs l) = true := by
  induction l with
  | nil => rfl
  | cons c rest ih =>
    unfold dropTrailingWs
    cases hr : dropTrailingWs rest with
    | nil =>
      by_cases hc : c.isWhitespace <;> simp [hc, lastNotWs]
    | cons d t =>
      rw [hr] at ih
      simpa [lastNotWs] using ih

/-! ## The claims -/

set_option maxRecDepth 100000

/-- C1 (counterexample): on a payload whose first entry has an id but no title
element, `parse_arxiv` does not skip the entry and continue — the whole call
fails (the Python code raises `IndexError`), so in particular the adjacent
well-formed entry is not returned. -/
theorem c1_counterexample :
    parse_arxiv malformedFeed = none
    ∧ parse_arxiv malformedFeed ≠ some [("Good Entry", "http://example.org/abs/2")] := by
  decide

/-- C1 (amended): an entry chunk that is missing a `title` element or an `id`
element makes `parse_arxiv` raise an uncaught `IndexError` (modelled `none`),
aborting the whole parse, so no entries at all — not even the well-formed
ones — are returned. -/
theorem c1_missing_tag_aborts_parse (feed e : String)
    (he : e ∈ (pySplit "<entry>" feed).drop 1)
    (hm : hasSub "<title>" e = false ∨ hasSub "<id>" e = false) :
    parse_arxiv feed = none := by
  unfold parse_arxiv
  exact mapOpt_none_of_mem _ _ _ he (parseEntry_none_of_missing_tag e hm)

/-- C1 (witness): the amended theorem applied to a concrete payload with one
entry that has no title element. -/
theorem c1_missing_tag_witness : parse_arxiv malformedFeed2 = none :=
  c1_missing_tag_aborts_parse malformedFeed2
    "<id>http://example.org/abs/9</id></feed>" (by decide) (Or.inl (by decide))

/-- C2 (code_bug evaluation): the URL `search_arxiv` builds for the query
"smart autonomous drone" contains literal space characters and no percent
escape at all — the query is interpolated verbatim, not percent-encoded. -/
theorem c2_url_has_literal_spaces :
    (search_arxiv_url "smart autonomous drone" 50).toList.contains ' ' = true
    ∧ (search_arxiv_url "smart autonomous drone" 50).toList.contains '%' = false := by
  decide

/-- C3 (counterexample): on the empty text and on text made only of stop
words, `extract_keywords` does not return an empty keyword set — the fit
raises (the library's empty-vocabulary `ValueError`, modelled `none`). -/
theorem c3_counterexample :
    extract_keywords "" 8 = none ∧ extract_keywords "the and of" 8 = none := by
  decide

/-- C3 (amended): whenever no qualifying term survives tokenization and
stop-word filtering (in particular for empty or stop-word-only text),
`extract_keywords` raises (modelled `none`) instead of returning an empty
keyword set. -/
theorem c3_empty_vocabulary_raises (s : String) (n : Nat)
    (h : qualifyingTerms s = []) : extract_keywords s n = none := by
  simp [extract_keywords, termVocab, h]

/-- C3 (witness): the amended theorem applied to a stop-word-only text. -/
theorem c3_empty_vocabulary_witness : extract_keywords " the " 4 = none :=
  c3_empty_vocabulary_raises " the " 4 (by decide)

/-- C4 (counterexample): with a response payload carrying six well-formed
entries and `num_papers = 5`, the Search Papers flow displays all six parsed
records — more than the requested five — because its display loop never
slices the parsed list. -/
theorem c4_counterexample :
    ((searchPapersShown sixEntryFeed 5).getD []).length = 6 := by
  decide

/-- C4 (amended): the keyword-driven Suggest Papers flow returns at most
`num_papers` records for any response payload (it slices the parsed list),
while the raw-query Search Papers flow returns exactly the parsed list,
uncapped — its `num_papers` input only parameterizes the request URL. -/
theorem c4_flow_caps (feed : String) (n : Nat) :
    (∀ ps, suggestedPapersShown feed n = some ps → ps.length ≤ n)
    ∧ searchPapersShown feed n = parse_arxiv feed := by
  constructor
  · intro ps h
    unfold suggestedPapersShown at h
    cases hp : parse_arxiv feed with
    | none => rw [hp] at h; simp at h
    | some l =>
      rw [hp] at h
      simp only [Option.map_some', Option.some.injEq] at h
      subst h
      exact List.length_take_le n l
  · rfl

/-- C4 (witness): the amended theorem applied to the six-entry payload with a
cap of two. -/
theorem c4_flow_caps_witness :
    ([("P1", "u1"), ("P2", "u2")] : List (String × String)).length ≤ 2 :=
  (c4_flow_caps sixEntryFeed 2).1 [("P1", "u1"), ("P2", "u2")] (by decide)

/-- C5: `predict_user_intent` is first-match-wins: any term sequence whose
lowercased terms contain "survey" or "review" classifies as the Survey label
no matter what else it contains; `["survey", "model", "algorithm"]` yields
Survey, `["dataset", "experiment"]` yields DatasetOrExperimental, and
`["zebra"]` yields General. -/
theorem c5_intent_first_match :
    (∀ ks : List String,
        ("survey" ∈ ks.map pyLowerS ∨ "review" ∈ ks.map pyLowerS) →
          predict_user_intent ks = surveyLabel)
    ∧ predict_user_intent ["survey", "model", "algorithm"] = surveyLabel
    ∧ predict_user_intent ["dataset", "experiment"] = datasetLabel
    ∧ predict_user_intent ["zebra"] = generalLabel := by
  refine ⟨?_, by decide, by decide, by decide⟩
  intro ks h
  simp only [predict_user_intent]
  rw [if_pos h]

/-- C5 (witness): the first-match rule applied to a concrete mixed-case term
sequence. -/
theorem c5_intent_witness : predict_user_intent ["Review"] = surveyLabel :=
  c5_intent_first_match.1 ["Review"] (Or.inr (by decide))

/-- C6: on the synthetic two-entry feed, `parse_arxiv` returns exactly the two
(title, link) records in document order, with surrounding whitespace trimmed
from the first entry's title and id. -/
theorem c6_feed_round_trip :
    parse_arxiv sampleFeed =
      some [("Quantum Error Correction", "http://example.org/abs/1"),
            ("Neural Scaling Laws", "http://example.org/abs/2")] := by
  decide

/-- C7: `clean_text` is total (the embedding is a total function), its output
never has two consecutive whitespace characters, starts and ends with
non-whitespace (leading/trailing whitespace removed), the empty string maps to
the empty string, and a text with interior runs of spaces, newlines and tabs
collapses to single spaces. -/
theorem c7_clean_text_contract :
    (∀ s : String,
        noWsRun (clean_text s).toList = true
        ∧ headNotWs (clean_text s).toList = true
        ∧ lastNotWs (clean_text s).toList = true)
    ∧ clean_text "" = "" ∧ clean_text "  a \n\t b  " = "a b" := by
  refine ⟨?_, by decide, by decide⟩
  intro s
  have key : (clean_text s).toList
      = dropTrailingWs ((collapseCore false s.toList).dropWhile Char.isWhitespace) := rfl
  rw [key]
  exact ⟨noWsRun_dropTrailing _ (noWsRun_dropWhile _ _ (noWsRun_collapse _ false)),
    headNotWs_dropTrailing _ (headNotWs_dropWhileWs _),
    lastNotWs_dropTrailing _⟩

/-- C8: whenever `extract_keywords` returns a keyword set, that set has at
most `top_n` entries and no duplicates, and if the document has at most
`top_n` distinct qualifying terms the returned set is exactly all of them (a
permutation of the vocabulary — no padding). -/
theorem c8_keywords_bounded (s : String) (n : Nat) (ks : List String)
    (h : extract_keywords s n = some ks) :
    ks.length ≤ n ∧ ks.Nodup
    ∧ ((termVocab s).length ≤ n → List.Perm ks (termVocab s)) := by
  have hnd : (termVocab s).Nodup := List.nodup_dedup _
  simp only [extract_keywords] at h
  by_cases hemp : (termVocab s).isEmpty
  · rw [if_pos hemp] at h; cases h
  · rw [if_neg hemp] at h
    by_cases hlen : (termVocab s).length ≤ n
    · rw [if_pos hlen] at h
      injection h with h
      subst h
      have hperm := sortLe_perm lexLe (termVocab s)
      exact ⟨hperm.length_eq.le.trans hlen, hperm.symm.nodup hnd,
        fun _ => hperm⟩
    · rw [if_neg hlen] at h
      injection h with h
      subst h
      have hperm := sortLe_perm lexLe
        ((sortLe (freqLe (termCount s)) (termVocab s)).take n)
      have hfreq := sortLe_perm (freqLe (termCount s)) (termVocab s)
      constructor
      · calc (sortLe lexLe ((sortLe (freqLe (termCount s)) (termVocab s)).take n)).length
            = ((sortLe (freqLe (termCount s)) (termVocab s)).take n).length :=
              hperm.length_eq
          _ ≤ n := List.length_take_le _ _
      constructor
      · exact hperm.symm.nodup
          ((List.take_sublist _ _).nodup (hfreq.symm.nodup hnd))
      · intro hc; exact absurd hc hlen

/-- C8 (counterexample): the text "and and and" has zero — hence fewer than
`top_n` = 8 — distinct qualifying terms, yet `extract_keywords` does not
return all of them (the empty set): the fit raises (modelled `none`) and
nothing is returned. -/
theorem c8_counterexample :
    (termVocab "and and and").length = 0
    ∧ extract_keywords "and and and" 8 = none := by
  decide

/-- C8 (witness): the bound theorem applied to a concrete four-word document
with three distinct qualifying terms. -/
theorem c8_keywords_witness :
    (["drives", "learning", "machine"] : List String).length ≤ 8
    ∧ (["drives", "learning", "machine"] : List String).Nodup := by
  have h := c8_keywords_bounded "machine learning drives machine" 8
    ["drives", "learning", "machine"] (by decide)
  exact ⟨h.1, h.2.1⟩

/-- C9: the tier table maps Short, Medium and Long to the strictly increasing
budgets 80 < 140 < 220, and for each budget the minimum length passed to the
summarizer is exactly 40 percent of the maximum (5 times the minimum equals 2
times the maximum). -/
theorem c9_tier_budgets :
    summary_max_len "Short" = some 80 ∧ summary_max_len "Medium" = some 140
    ∧ summary_max_len "Long" = some 220 ∧ 80 < 140 ∧ 140 < 220
    ∧ 5 * summary_min_len 80 = 2 * 80 ∧ 5 * summary_min_len 140 = 2 * 140
    ∧ 5 * summary_min_len 220 = 2 * 220 := by
  decide

/-- C10: a payload in which the delimiter `<entry>` never occurs (an error
page, an empty feed) parses to the empty record list without failing:
everything before the first delimiter is discarded. -/
theorem c10_no_entry_yields_empty (feed : String)
    (h : hasSub "<entry>" feed = false) : parse_arxiv feed = some [] := by
  unfold parse_arxiv
  rw [pySplit_of_not_hasSub _ _ h]
  rfl

/-- C10 (witness): the theorem applied to a concrete entry-free error page. -/
theorem c10_no_entry_witness :
    parse_arxiv "<html>No entries found</html>" = some [] :=
  c10_no_entry_yields_empty "<html>No entries found</html>" (by decide)

end RPA
